import Mathlib

/-!
Shallow embedding of the tgcp resource-driven navigation and dispatch engine
(src/app.rs, src/resource/registry.rs, src/gcp/dispatch.rs, src/config.rs,
src/gcp/client.rs), together with theorems settling the specification claims.

Modelling conventions:
* JSON trees (`serde_json::Value`) are the inductive `Json` below; numbers are
  modelled as integers (no claim involves floating-point values); objects are
  association lists in insertion order (key lookup returns the first match).
* Machine integers (`usize`) are `Nat`; Rust's `saturating_sub` is `Nat`
  subtraction.
* Network effects are oracles: the outcome of the dispatch layer's `list`
  respectively `execute` call is passed in as an `Except` parameter, and the
  wall clock (`Instant::now()`) as a `Nat` parameter.
* The resource catalog (built from embedded JSON documents that are not part
  of the source snapshot) is a parameter `reg : Registry`.
* The `App` field `last_key_press` (outer-loop double-key bookkeeping, never
  read or written by the modelled operations) is omitted.
-/

namespace Tgcp

/-- JSON values as in `serde_json::Value`; numbers restricted to integers. -/
inductive Json where
  | null : Json
  | bool (b : Bool) : Json
  | num (n : Int) : Json
  | str (s : String) : Json
  | arr (elems : List Json) : Json
  | obj (fields : List (String × Json)) : Json
deriving Repr

/-- `Value::get` with a string key: object field lookup (first match). -/
def Json.get (v : Json) (key : String) : Option Json :=
  match v with
  | .obj fields => (fields.find? (fun p => p.1 == key)).map Prod.snd
  | _ => none

/-!
String primitives, implemented over `List Char` so that they evaluate inside
the kernel. For valid UTF-8, Rust's byte-level substring/prefix operations
coincide with these character-level ones.
-/

/-- `containsList hay pat`: does `pat` occur contiguously inside `hay`? -/
def containsList (hay pat : List Char) : Bool :=
  match hay with
  | [] => pat.isEmpty
  | _ :: rest => pat.isPrefixOf hay || containsList rest pat

/-- Rust `str::contains` with a string pattern. -/
def rustContains (s pat : String) : Bool :=
  containsList s.toList pat.toList

/-- Rust `str::starts_with` with a string pattern. -/
def strStartsWith (s pat : String) : Bool :=
  pat.toList.isPrefixOf s.toList

/-- Split `hay` at every non-overlapping, leftmost-first occurrence of the
non-empty pattern `pat`; the `fuel` argument only bounds the recursion and is
seeded with the length of `hay` (one character is consumed per step). -/
def splitOnListAux (pat : List Char) : Nat → List Char → List Char → List (List Char)
  | _, [], acc => [acc.reverse]
  | 0, l, acc => [acc.reverse ++ l]
  | fuel + 1, c :: rest, acc =>
      if pat.isPrefixOf (c :: rest) then
        acc.reverse :: splitOnListAux pat fuel ((c :: rest).drop pat.length) []
      else
        splitOnListAux pat fuel rest (c :: acc)

/-- Rust `str::split` with a string pattern (also the semantics of Lean's
`String.splitOn`). An empty pattern yields the whole string; no call site
uses an empty pattern. -/
def strSplitOn (s sep : String) : List String :=
  if sep.isEmpty then [s]
  else (splitOnListAux sep.toList s.toList.length s.toList []).map List.asString

/-- Join character lists with a separator. -/
def intercalateList (sep : List Char) : List (List Char) → List Char
  | [] => []
  | [x] => x
  | x :: xs => x ++ sep ++ intercalateList sep xs

/-- Rust `str::replace`: replace every non-overlapping occurrence of `pat`
(leftmost first) by `rep`. -/
def strReplace (s pat rep : String) : String :=
  if pat.isEmpty then s
  else
    (intercalateList rep.toList
      (splitOnListAux pat.toList s.toList.length s.toList [])).asString

/-- Decimal digit parser over characters. -/
def digitVal? (c : Char) : Option Nat :=
  if 48 ≤ c.toNat ∧ c.toNat ≤ 57 then some (c.toNat - 48) else none

/-- Parse a non-empty all-digit string as a natural number (the successful
cases of Rust's `str::parse::<usize>`; oversized inputs that overflow `usize`
only ever index arrays far shorter than `usize::MAX`, so the difference is
unobservable). -/
def parseNatList : List Char → Option Nat
  | [] => none
  | cs => cs.foldlM (fun acc c => (digitVal? c).map (fun d => acc * 10 + d)) 0

/-- `serde_json`'s index parser for JSON-pointer tokens: rejects a leading `+`
and leading zeros (except the single digit `0`). -/
def parseIndex (s : String) : Option Nat :=
  if strStartsWith s "+" then none
  else if strStartsWith s "0" && s.toList.length != 1 then none
  else parseNatList s.toList

/-- JSON-pointer token unescaping: `~1` becomes `/`, then `~0` becomes `~`. -/
def unescapeToken (s : String) : String :=
  strReplace (strReplace s "~1" "/") "~0" "~"

/-- One JSON-pointer navigation step (`serde_json::Value::pointer`'s fold). -/
def pointerStep (v : Json) (token : String) : Option Json :=
  match v with
  | .obj _ => v.get token
  | .arr elems => (parseIndex token).bind (fun i => elems.get? i)
  | _ => none

/-- `serde_json::Value::pointer`. -/
def Json.pointer (v : Json) (ptr : String) : Option Json :=
  if ptr.isEmpty then some v
  else if ! strStartsWith ptr "/" then none
  else ((strSplitOn ptr "/").drop 1).foldlM (fun t tok => pointerStep t (unescapeToken tok)) v

/-- Last component of `s.split('/')` (Rust's `split('/').next_back()`);
`split` always yields at least one piece, so the default is never needed. -/
def lastSlashSegment (s : String) : String :=
  ((strSplitOn s "/").getLast?).getD s

/-- `format_json_value` from src/resource/registry.rs. -/
def formatJsonValue : Json → String
  | .str s =>
      if strStartsWith s "https://www.googleapis.com/" then lastSlashSegment s
      else if strStartsWith s "projects/" then lastSlashSegment s
      else s
  | .num n => toString n
  | .bool b => toString b
  | .null => "-"
  | .arr elems =>
      if elems.isEmpty then "-" else "[" ++ toString elems.length ++ " items]"
  | .obj _ => "[object]"

/-- Dot/bracket path to JSON pointer: `.` and `[` become `/`, `]` is dropped,
with a leading `/` (src/resource/registry.rs, `extract_json_value`). -/
def pathToPointer (path : String) : String :=
  "/" ++ (strReplace (strReplace (strReplace path "." "/") "[" "/") "]" "")

/-- The `labels.<key>` convention of `extract_json_value`: when the path starts
with `labels.`, look the remainder up inside the `labels` object
(`strip_prefix` drops the seven characters of `labels.`). -/
def labelsLookup (v : Json) (path : String) : Option Json :=
  if strStartsWith path "labels." then
    (v.get "labels").bind (fun l => l.get (String.mk (path.toList.drop 7)))
  else none

/-- `extract_json_value` from src/resource/registry.rs: direct field access,
then the pointer derived from the path, then the `labels.<key>` convention,
and finally the sentinel `-`. -/
def extract_json_value (v : Json) (path : String) : String :=
  match v.get path with
  | some found => formatJsonValue found
  | none =>
    match v.pointer (pathToPointer path) with
    | some found => formatJsonValue found
    | none =>
      match labelsLookup v path with
      | some found => formatJsonValue found
      | none => "-"

/-- `extract_aggregated_items` from src/gcp/dispatch.rs: split the path on the
literal `.*.`; when that yields exactly a map field and an array field, treat
the map field as an object and concatenate every value's array field. -/
def extract_aggregated_items (response : Json) (path : String) : List Json :=
  match strSplitOn path ".*." with
  | [mapField, arrayField] =>
    match response.get mapField with
    | some (.obj fields) =>
        fields.foldl
          (fun acc p =>
            match p.2.get arrayField with
            | some (.arr items) => acc ++ items
            | _ => acc)
          []
    | _ => []
  | _ => []

/-!
Serde-style compact JSON rendering (`serde_json::Value::to_string`), used by
`apply_filter`'s fallback branch when no resource definition is active.
-/

/-- One hexadecimal digit. -/
def hexDigit (n : Nat) : Char :=
  if n < 10 then Char.ofNat (48 + n) else Char.ofNat (87 + n)

/-- JSON string escaping as in serde_json's compact writer. -/
def escapeJsonChar (c : Char) : List Char :=
  if c = '"' then ['\\', '"']
  else if c = '\\' then ['\\', '\\']
  else if c = '\n' then ['\\', 'n']
  else if c = '\r' then ['\\', 'r']
  else if c = '\t' then ['\\', 't']
  else if c.toNat = 8 then ['\\', 'b']
  else if c.toNat = 12 then ['\\', 'f']
  else if c.toNat < 32 then
    ['\\', 'u', '0', '0', hexDigit (c.toNat / 16), hexDigit (c.toNat % 16)]
  else [c]

/-- A JSON string literal with quotes and escaping. -/
def escapeJsonString (s : String) : String :=
  "\"" ++ (s.toList.foldr (fun c acc => escapeJsonChar c ++ acc) []).asString ++ "\""

mutual

/-- Compact rendering of a JSON value (`Value::to_string`). -/
def Json.render : Json → String
  | .null => "null"
  | .bool b => toString b
  | .num n => toString n
  | .str s => escapeJsonString s
  | .arr elems => "[" ++ renderElems elems ++ "]"
  | .obj fields => "\x7b" ++ renderFields fields ++ "\x7d"

/-- Comma-separated rendering of array elements. -/
def renderElems : List Json → String
  | [] => ""
  | [x] => x.render
  | x :: y :: xs => x.render ++ "," ++ renderElems (y :: xs)

/-- Comma-separated rendering of object fields. -/
def renderFields : List (String × Json) → String
  | [] => ""
  | [(k, v)] => escapeJsonString k ++ ":" ++ v.render
  | (k, v) :: y :: xs => escapeJsonString k ++ ":" ++ v.render ++ "," ++ renderFields (y :: xs)

end

/-!
The data model of src/resource/registry.rs (catalog side) and src/app.rs
(navigation state machine).
-/

/-- UI mode (`Mode` in src/app.rs). -/
inductive Mode where
  | Normal | Command | Help | Confirm | Warning | Projects | Zones | Describe
deriving DecidableEq, Repr

/-- `PendingAction` from src/app.rs. -/
structure PendingAction where
  message : String
  destructive : Bool
  selected_yes : Bool
  action_key : String
  resource_id : String
deriving Repr

/-- `ParentContext` from src/app.rs. -/
structure ParentContext where
  resource_key : String
  item : Json
  display_name : String
deriving Repr

/-- `ApiDef` from src/resource/registry.rs. -/
structure ApiDef where
  base : String
  path : String
  method : String
deriving Repr

/-- `ColumnDef` from src/resource/registry.rs. -/
structure ColumnDef where
  header : String
  json_path : String
  width : Nat
  color_map : Option String
deriving Repr

/-- `ConfirmConfig` from src/resource/registry.rs. -/
structure ConfirmConfig where
  message : String
  destructive : Bool
deriving Repr

/-- `ActionApiDef` from src/resource/registry.rs. -/
structure ActionApiDef where
  method : String
  path : String
deriving Repr

/-- `ActionDef` from src/resource/registry.rs. -/
structure ActionDef where
  display_name : String
  api : ActionApiDef
  shortcut : Option String
  confirm : Option ConfirmConfig
deriving Repr

/-- `SubResourceDef` from src/resource/registry.rs. -/
structure SubResourceDef where
  resource_key : String
  display_name : String
  shortcut : String
  parent_id_field : String
  filter_param : String
deriving Repr

/-- `ResourceDef` from src/resource/registry.rs. -/
structure ResourceDef where
  display_name : String
  service : String
  api : ApiDef
  response_path : String
  id_field : String
  name_field : String
  columns : List ColumnDef
  actions : List ActionDef
  sub_resources : List SubResourceDef
deriving Repr

/-- The resource catalog (`get_resource`), a parameter of the model because
the embedded catalog documents are not part of the source snapshot. -/
abbrev Registry := String → Option ResourceDef

/-- `GcpClient`'s navigation-relevant fields (src/gcp/client.rs); the HTTP
handle is out of scope. -/
structure GcpClient where
  project : String
  zone : String
  region : String
deriving Repr

/-- `Config` from src/config.rs (the on-disk persistence of `save` is out of
scope; only the in-memory fields are modelled). -/
structure Config where
  project : Option String
  zone : Option String
  last_resource : Option String
deriving Repr

/-- The `App` state from src/app.rs. The wall clock is a `Nat`; the
`last_key_press` outer-loop bookkeeping field is omitted (never touched by the
modelled operations). -/
structure App where
  client : GcpClient
  resource_key : String
  items : List Json
  filtered_items : List Json
  selected : Nat
  mode : Mode
  filter_text : String
  filter_active : Bool
  parent_context : Option ParentContext
  navigation_stack : List ParentContext
  command_text : String
  command_suggestions : List String
  command_suggestion_selected : Nat
  command_preview : Option String
  project : String
  zone : String
  available_projects : List String
  available_zones : List String
  projects_selected : Nat
  zones_selected : Nat
  pending_action : Option PendingAction
  loading : Bool
  error : Option String
  describe_scroll : Nat
  describe_data : Option Json
  last_refresh : Nat
  warning_message : Option String
  config : Config
  readonly : Bool
deriving Repr

/-!
Operations of the navigation state machine (src/app.rs). Network calls are
oracles: `fetch` is the outcome the dispatch layer's `list_resources` call
would produce, `execResult` the outcome of `execute_action`, and `now` the
value of `Instant::now()` used by `mark_refreshed`.
-/

/-- Rust's ASCII `to_lowercase` over our character model. -/
def strToLower (s : String) : String :=
  (s.toList.map Char.toLower).asString

/-- Rust `str::split_whitespace`: split on whitespace, dropping empty pieces. -/
def splitPred (p : Char → Bool) : List Char → List Char → List (List Char)
  | [], acc => [acc.reverse]
  | c :: rest, acc =>
      if p c then acc.reverse :: splitPred p rest []
      else splitPred p rest (c :: acc)

/-- `split_whitespace` on strings. -/
def splitWhitespace (s : String) : List String :=
  ((splitPred Char.isWhitespace s.toList []).filter (fun l => ! l.isEmpty)).map
    List.asString

/-- `get_resource` (src/resource/registry.rs) against the catalog parameter. -/
def get_resource (reg : Registry) (key : String) : Option ResourceDef := reg key

/-- `App::current_resource`. -/
def current_resource (reg : Registry) (a : App) : Option ResourceDef :=
  get_resource reg a.resource_key

/-- `App::selected_item`. -/
def selected_item (a : App) : Option Json :=
  a.filtered_items.get? a.selected

/-- The per-item predicate of `App::apply_filter`: match the lower-cased name
or id field when a resource definition is active, else substring-search the
compact JSON rendering of the item. -/
def itemMatchesFilter (res? : Option ResourceDef) (filter : String) (item : Json) : Bool :=
  match res? with
  | some res =>
      rustContains (strToLower (extract_json_value item res.name_field)) filter
      || rustContains (strToLower (extract_json_value item res.id_field)) filter
  | none => rustContains (strToLower item.render) filter

/-- The trailing selection adjustment of `App::apply_filter`: clamp the
selection to the last index when it fell out of a non-empty filtered list. -/
def clampSelection (b : App) : App :=
  if b.selected ≥ b.filtered_items.length ∧ b.filtered_items.isEmpty = false then
    { b with selected := b.filtered_items.length - 1 }
  else b

/-- `App::apply_filter`. -/
def apply_filter (reg : Registry) (a : App) : App :=
  let filter := strToLower a.filter_text
  clampSelection
    (if filter.isEmpty then { a with filtered_items := a.items }
     else
       { a with filtered_items :=
           a.items.filter (itemMatchesFilter (current_resource reg a) filter) })

/-- `App::clear_filter`. -/
def clear_filter (reg : Registry) (a : App) : App :=
  apply_filter reg { a with filter_text := "", filter_active := false }

/-- `App::show_error`. -/
def show_error (msg : String) (a : App) : App :=
  { a with error := some msg, warning_message := none, mode := Mode.Warning }

/-- `App::show_warning`. -/
def show_warning (msg : String) (a : App) : App :=
  { a with warning_message := some msg, error := none, mode := Mode.Warning }

/-- `App::exit_mode`. -/
def exit_mode (a : App) : App :=
  { a with mode := Mode.Normal, pending_action := none, describe_data := none,
           warning_message := none, error := none }

/-- `App::refresh`. The `fetch` oracle stands for
`list_resources(&self.client, resource, parent_item)`, whose `parent_item`
argument is `self.parent_context.as_ref().map(|ctx| &ctx.item)`. -/
def refresh (reg : Registry) (fetch : Except String (List Json)) (now : Nat)
    (a : App) : App :=
  let a := { a with loading := true, error := none }
  let a :=
    match get_resource reg a.resource_key with
    | some _resource =>
      match fetch with
      | .ok items =>
          let prev_selected := a.selected
          let a := apply_filter reg { a with items := items }
          if prev_selected < a.filtered_items.length then
            { a with selected := prev_selected }
          else
            { a with selected := 0 }
      | .error e =>
          let a := show_error e a
          { a with items := [], filtered_items := [], selected := 0 }
    | none => show_error ("Resource " ++ a.resource_key ++ " not found") a
  { a with loading := false, last_refresh := now }

/-- `App::next`. -/
def next (a : App) : App :=
  match a.mode with
  | Mode.Projects =>
      if a.available_projects.isEmpty = false then
        let sel := min (a.projects_selected + 1) (a.available_projects.length - 1)
        { a with projects_selected := sel }
      else a
  | Mode.Zones =>
      if a.available_zones.isEmpty = false then
        let sel := min (a.zones_selected + 1) (a.available_zones.length - 1)
        { a with zones_selected := sel }
      else a
  | _ =>
      if a.filtered_items.isEmpty = false then
        let sel := min (a.selected + 1) (a.filtered_items.length - 1)
        { a with selected := sel }
      else a

/-- `App::previous` (`saturating_sub` is `Nat` subtraction). -/
def previous (a : App) : App :=
  match a.mode with
  | Mode.Projects => { a with projects_selected := a.projects_selected - 1 }
  | Mode.Zones => { a with zones_selected := a.zones_selected - 1 }
  | _ => { a with selected := a.selected - 1 }

/-- `App::go_to_top`. -/
def go_to_top (a : App) : App :=
  match a.mode with
  | Mode.Projects => { a with projects_selected := 0 }
  | Mode.Zones => { a with zones_selected := 0 }
  | _ => { a with selected := 0 }

/-- `App::go_to_bottom`. -/
def go_to_bottom (a : App) : App :=
  match a.mode with
  | Mode.Projects =>
      if a.available_projects.isEmpty = false then
        { a with projects_selected := a.available_projects.length - 1 }
      else a
  | Mode.Zones =>
      if a.available_zones.isEmpty = false then
        { a with zones_selected := a.available_zones.length - 1 }
      else a
  | _ =>
      if a.filtered_items.isEmpty = false then
        { a with selected := a.filtered_items.length - 1 }
      else a

/-- `App::navigate_to_resource`. -/
def navigate_to_resource (reg : Registry) (fetch : Except String (List Json))
    (now : Nat) (resource_key : String) (a : App) : App :=
  if (get_resource reg resource_key).isNone then
    { a with error := some ("Unknown resource: " ++ resource_key) }
  else
    let a := { a with parent_context := none, navigation_stack := [],
                      resource_key := resource_key, selected := 0,
                      filter_text := "", filter_active := false,
                      mode := Mode.Normal }
    refresh reg fetch now a

/-- `App::navigate_to_sub_resource`. `Vec::push` appends at the end of
`navigation_stack`; `Vec::pop` removes from the end. -/
def navigate_to_sub_resource (reg : Registry) (fetch : Except String (List Json))
    (now : Nat) (sub_resource_key : String) (a : App) : App :=
  match selected_item a with
  | none => a
  | some selectedItem =>
    match current_resource reg a with
    | none => a
    | some current =>
      if (current.sub_resources.any (fun s => s.resource_key == sub_resource_key)) = false then
        { a with error := some (sub_resource_key ++ " is not a sub-resource of "
                                ++ a.resource_key) }
      else
        let display_name := extract_json_value selectedItem current.name_field
        let id := extract_json_value selectedItem current.id_field
        let display := if display_name ≠ "-" then display_name else id
        let a :=
          match a.parent_context with
          | some ctx =>
              { a with navigation_stack := a.navigation_stack ++ [ctx],
                       parent_context := none }
          | none => a
        let a := { a with
          parent_context := some ⟨a.resource_key, selectedItem, display⟩,
          resource_key := sub_resource_key, selected := 0,
          filter_text := "", filter_active := false }
        refresh reg fetch now a

/-- `App::navigate_back`. -/
def navigate_back (reg : Registry) (fetch : Except String (List Json))
    (now : Nat) (a : App) : App :=
  match a.parent_context with
  | none => a
  | some parent =>
    let a := { a with parent_context := a.navigation_stack.getLast?,
                      navigation_stack := a.navigation_stack.dropLast,
                      resource_key := parent.resource_key, selected := 0,
                      filter_text := "", filter_active := false }
    refresh reg fetch now a

/-- `derive_region_from_zone` (src/gcp/dispatch.rs) and `derive_region`
(src/gcp/client.rs): drop the final hyphen-separated segment. -/
def derive_region_from_zone (zone : String) : String :=
  let parts := strSplitOn zone "-"
  if parts.length ≤ 1 then zone
  else (intercalateList ['-'] ((parts.map String.toList).dropLast)).asString

/-- `App::switch_zone` (the on-disk config save is out of scope; the config
field update of `Config::set_zone` is kept). -/
def switch_zone (zone : String) (a : App) : App :=
  let client := { a.client with zone := zone, region := derive_region_from_zone zone }
  let config := { a.config with zone := some zone }
  { a with zone := zone, client := client, config := config }

/-- `App::switch_project`. -/
def switch_project (project : String) (a : App) : App :=
  let client := { a.client with project := project }
  let config := { a.config with project := some project }
  { a with project := project, client := client, config := config }

/-- `App::enter_projects_mode`. -/
def enter_projects_mode (a : App) : App :=
  let sel := (a.available_projects.findIdx? (fun p => p == a.project)).getD 0
  { a with projects_selected := sel, mode := Mode.Projects }

/-- `App::enter_zones_mode`. -/
def enter_zones_mode (a : App) : App :=
  let sel := (a.available_zones.findIdx? (fun z => z == a.zone)).getD 0
  { a with zones_selected := sel, mode := Mode.Zones }

/-- The effective-command resolution at the top of `App::execute_command`:
empty typed buffer uses the preview; a non-empty buffer prefers a preview
that contains the typed text as a substring; otherwise the typed text. -/
def effective_command_text (a : App) : String :=
  if a.command_text.isEmpty then (a.command_preview.getD "")
  else
    match a.command_preview with
    | some preview =>
        if rustContains preview a.command_text then preview else a.command_text
    | none => a.command_text

/-- `App::execute_command`; the returned `Bool` is the quit signal. The Rust
match arms are translated in order; arms guarded by `parts.len() > 1` fall
through to the default arm when the guard fails. -/
def execute_command (reg : Registry) (fetch : Except String (List Json))
    (now : Nat) (a : App) : App × Bool :=
  let command_text := effective_command_text a
  let parts := splitWhitespace command_text
  match parts with
  | [] => (a, false)
  | cmd :: rest =>
    if cmd = "q" ∨ cmd = "quit" then (a, true)
    else if cmd = "projects" then (enter_projects_mode a, false)
    else if cmd = "zones" then (enter_zones_mode a, false)
    else
      let a :=
        if cmd = "back" then navigate_back reg fetch now a
        else if cmd = "zone" ∧ rest ≠ [] then
          refresh reg fetch now (switch_zone (rest.headD "") a)
        else if cmd = "project" ∧ rest ≠ [] then
          refresh reg fetch now (switch_project (rest.headD "") a)
        else if (get_resource reg cmd).isSome then
          match current_resource reg a with
          | some resource =>
              if (resource.sub_resources.any (fun s => s.resource_key == cmd))
                 ∧ (selected_item a).isSome then
                navigate_to_sub_resource reg fetch now cmd a
              else navigate_to_resource reg fetch now cmd a
          | none => navigate_to_resource reg fetch now cmd a
        else { a with error := some ("Unknown command: " ++ cmd) }
      ({ a with mode := Mode.Normal }, false)

/-- `App::trigger_action`. The function itself performs no dispatch call; it
only constructs a `PendingAction` (or warns). -/
def trigger_action (reg : Registry) (action_index : Nat) (a : App) : App :=
  if a.readonly then
    show_warning "This operation is not supported in read-only mode" a
  else
    match current_resource reg a with
    | none => a
    | some resource =>
      match resource.actions.get? action_index with
      | none => a
      | some action =>
        match selected_item a with
        | none => show_warning "No item selected" a
        | some item =>
          let item_name := extract_json_value item resource.name_field
          let item_id := extract_json_value item resource.id_field
          match action.confirm with
          | some confirm =>
            let message :=
              strReplace (strReplace confirm.message "{name}" item_name)
                "{id}" item_id
            { a with
              pending_action := some ⟨message, confirm.destructive, false,
                                      toString action_index, item_id⟩,
              mode := Mode.Confirm }
          | none =>
            { a with
              pending_action := some ⟨"", false, true,
                                      toString action_index, item_id⟩ }

/-- Rust `str::parse::<usize>`: optional leading `+`, then decimal digits. -/
def parseUsize (s : String) : Option Nat :=
  match s.toList with
  | '+' :: rest => parseNatList rest
  | l => parseNatList l

/-- `App::execute_pending_action`. `execResult` is the outcome the dispatch
layer's `execute_action` call would produce and `fetch` the outcome of the
`list` call inside the nested `refresh` on success. -/
def execute_pending_action (reg : Registry) (execResult : Except String Json)
    (fetch : Except String (List Json)) (now : Nat) (a : App) : App :=
  match a.pending_action with
  | none => a
  | some pending =>
    let a := { a with pending_action := none }
    if pending.selected_yes = false then exit_mode a
    else
      match parseUsize pending.action_key with
      | none => show_warning "Invalid action index" a
      | some action_index =>
        match current_resource reg a with
        | none => show_warning "No resource selected" a
        | some resource =>
          match selected_item a with
          | none => show_warning "No item selected" a
          | some _item =>
            let action_name :=
              ((resource.actions.get? action_index).map
                (fun act => act.display_name)).getD "Unknown"
            let a := { a with loading := true, mode := Mode.Normal }
            let a :=
              match execResult with
              | .ok _ => refresh reg fetch now a
              | .error e =>
                  { a with error := some ("Action '" ++ action_name
                                          ++ "' failed: " ++ e) }
            { a with loading := false }


/-!
Concrete fixtures (catalogs, states, JSON trees) used by the claim theorems,
witnesses and counterexamples, plus the spec-side measures the claims are
stated with.
-/

/-- The JSON tree of the C8 scenario:
`{"networkInterfaces":[{"accessConfigs":[{"natIP":"35.1.2.3"}]}]}`. -/
def natIpTree : Json :=
  .obj [("networkInterfaces",
    .arr [.obj [("accessConfigs", .arr [.obj [("natIP", .str "35.1.2.3")]])]])]

/-- The aggregated response of the C9 scenario:
`{"items":{"us-central1":{"subnetworks":["A","B"]},"europe-west1":{"subnetworks":["C"]}}}`. -/
def aggResponse : Json :=
  .obj [("items", .obj
    [ ("us-central1", .obj [("subnetworks", .arr [.str "A", .str "B"])])
    , ("europe-west1", .obj [("subnetworks", .arr [.str "C"])]) ])]

/-- A catalog with no resources (for scenarios that do not consult it). -/
def regEmpty : Registry := fun _ => none

/-- A baseline application state mirroring `App::new`'s initial state. -/
def baseApp : App :=
  { client := ⟨"proj", "us-central1-a", "us-central1"⟩
  , resource_key := "vm-instances"
  , items := [], filtered_items := [], selected := 0, mode := Mode.Normal
  , filter_text := "", filter_active := false, parent_context := none
  , navigation_stack := [], command_text := "", command_suggestions := []
  , command_suggestion_selected := 0, command_preview := none
  , project := "proj", zone := "us-central1-a"
  , available_projects := ["proj"], available_zones := ["us-central1-a"]
  , projects_selected := 0, zones_selected := 0, pending_action := none
  , loading := false, error := none, describe_scroll := 0, describe_data := none
  , last_refresh := 0, warning_message := none
  , config := ⟨none, none, none⟩, readonly := false }

/-- A concrete resource definition in the style of the catalog's
`vm-instances` entry. -/
def vmResource : ResourceDef :=
  { display_name := "VM Instances"
  , service := "compute"
  , api := ⟨"https://compute.googleapis.com/compute/v1", "/projects/{project}/zones/{zone}/instances", "GET"⟩
  , response_path := "items"
  , id_field := "id"
  , name_field := "name"
  , columns := [⟨"NAME", "name", 20, none⟩]
  , actions := []
  , sub_resources := [] }

/-- A catalog holding `vmResource` under `vm-instances`. -/
def regVm : Registry := fun key => if key = "vm-instances" then some vmResource else none

/-- Two instances with a filter that matches neither, and the second row
selected. -/
def filterApp : App :=
  { baseApp with
    items := [Json.obj [("name", Json.str "alpha")], Json.obj [("name", Json.str "beta")]]
    filtered_items := [Json.obj [("name", Json.str "alpha")], Json.obj [("name", Json.str "beta")]]
    selected := 1
    filter_text := "zzz" }

/-- A resource definition declaring one drill-down edge, in the style of the
catalog's `service-accounts` entry. -/
def saResource : ResourceDef :=
  { display_name := "Service Accounts"
  , service := "iam"
  , api := ⟨"https://iam.googleapis.com/v1", "/projects/{project}/serviceAccounts", "GET"⟩
  , response_path := "accounts"
  , id_field := "uniqueId"
  , name_field := "displayName"
  , columns := [⟨"NAME", "displayName", 30, none⟩]
  , actions := []
  , sub_resources := [⟨"sa-keys", "Keys", "k", "name", "name"⟩] }

/-- A catalog holding `saResource` under `service-accounts`. -/
def regSa : Registry := fun key => if key = "service-accounts" then some saResource else none

/-- A state browsing `service-accounts` with one item selected. -/
def navApp : App :=
  { baseApp with
    resource_key := "service-accounts"
    items := [Json.obj [("displayName", Json.str "svc-a"), ("uniqueId", Json.str "1")]]
    filtered_items := [Json.obj [("displayName", Json.str "svc-a"), ("uniqueId", Json.str "1")]] }

/-- A read-only state carrying a dismissed-error message. -/
def readonlyApp : App := { baseApp with readonly := true, error := some "boom" }

/-- A state with a pending action whose confirmation selection is "No". -/
def pendingNoApp : App :=
  { baseApp with
    mode := Mode.Confirm
    pending_action := some ⟨"Delete x?", true, false, "0", "x"⟩ }

/-- A command-mode state with typed text `proj` hovering the suggestion
`projects`. -/
def cmdApp : App :=
  { baseApp with
    mode := Mode.Command
    command_text := "proj"
    command_preview := some "projects" }

/-- A command-mode state whose effective command is `q`. -/
def quitApp : App :=
  { baseApp with mode := Mode.Command, command_text := "q" }

/-- A command-mode state whose effective command is `back`. -/
def backApp : App :=
  { baseApp with mode := Mode.Command, command_text := "back" }

/-- Total number of frames on the navigation stack, counting the optional
top-of-stack parent context as one frame (spec §3: `ParentContext` is "one
frame of the navigation stack"). -/
def navStackLen (a : App) : Nat :=
  a.navigation_stack.length + (if a.parent_context.isSome then 1 else 0)

/-- The half of the spec invariant that the code maintains: the selection
index is strictly below the filtered-list length whenever that list is
non-empty. -/
def selectionInRange (a : App) : Prop :=
  a.filtered_items ≠ [] → a.selected < a.filtered_items.length

end Tgcp

namespace Tgcp

/-!
Claim theorems, witnesses, counterexamples and their helper lemmas.
-/

/-- C8: path extraction of `networkInterfaces[0].accessConfigs[0].natIP`
against the nested tree yields `"35.1.2.3"`, and whenever a path resolves to
no value by direct field access, by the pointer derived from the path, or by
the `labels.<key>` convention, extraction returns the sentinel `"-"`. -/
theorem extract_json_value_natIP_and_sentinel :
    extract_json_value natIpTree "networkInterfaces[0].accessConfigs[0].natIP"
      = "35.1.2.3"
    ∧ ∀ (v : Json) (path : String),
        v.get path = none →
        v.pointer (pathToPointer path) = none →
        labelsLookup v path = none →
        extract_json_value v path = "-" := by
  refine ⟨by decide, ?_⟩
  intro v path h1 h2 h3
  simp only [extract_json_value, h1, h2, h3]

/-- Witness for the sentinel half of C8: the path `b` resolves to no value in
`{"a":"x"}` by any of the three mechanisms, and extraction returns `"-"`. -/
theorem extract_json_value_sentinel_witness :
    (Json.obj [("a", .str "x")]).get "b" = none
    ∧ (Json.obj [("a", .str "x")]).pointer (pathToPointer "b") = none
    ∧ labelsLookup (Json.obj [("a", .str "x")]) "b" = none
    ∧ extract_json_value (Json.obj [("a", .str "x")]) "b" = "-" :=
  ⟨rfl, rfl, rfl,
    extract_json_value_natIP_and_sentinel.2 (Json.obj [("a", .str "x")]) "b"
      rfl rfl rfl⟩

/-- C9: aggregated extraction of `items.*.subnetworks` over the two-region
response yields three elements that are a permutation of `A`, `B`, `C` (the
cross-region order is not part of the claim). -/
theorem extract_aggregated_items_three_regions :
    (extract_aggregated_items aggResponse "items.*.subnetworks").length = 3
    ∧ List.Perm (extract_aggregated_items aggResponse "items.*.subnetworks")
        [Json.str "A", Json.str "B", Json.str "C"] := by
  have h : extract_aggregated_items aggResponse "items.*.subnetworks"
      = [Json.str "A", Json.str "B", Json.str "C"] := rfl
  exact ⟨by simp [h], by rw [h]⟩

end Tgcp

namespace Tgcp

/-- C10: with no selected item or no current resource definition,
`navigate_to_sub_resource` is the identity on the whole state, for every
outcome of the dispatch oracle (so no refresh happens either). -/
theorem navigate_to_sub_resource_noop (reg : Registry)
    (fetch : Except String (List Json)) (now : Nat) (key : String) (a : App)
    (h : selected_item a = none ∨ current_resource reg a = none) :
    navigate_to_sub_resource reg fetch now key a = a := by
  rcases h with h | h
  · simp [navigate_to_sub_resource, h]
  · cases hsel : selected_item a with
    | none => simp [navigate_to_sub_resource, hsel]
    | some it => simp [navigate_to_sub_resource, hsel, h]

/-- Witness for C10 at a concrete state with an empty filtered list. -/
theorem navigate_to_sub_resource_noop_witness :
    selected_item baseApp = none
    ∧ navigate_to_sub_resource regEmpty (Except.error "down") 7 "disks" baseApp
        = baseApp :=
  ⟨rfl, navigate_to_sub_resource_noop regEmpty (Except.error "down") 7 "disks"
      baseApp (Or.inl rfl)⟩

end Tgcp

namespace Tgcp

/-- C4 as stated is false: in read-only mode `trigger_action` does more than
set the warning message and mode — it also clears an existing error message
(`show_warning` resets `error` to `None`). -/
theorem trigger_action_readonly_clears_error :
    readonlyApp.readonly = true
    ∧ readonlyApp.error = some "boom"
    ∧ (trigger_action regEmpty 0 readonlyApp).error = none :=
  ⟨rfl, rfl, rfl⟩

/-- C4 amended: in read-only mode, for every action index, `trigger_action`
only sets the warning message, clears the error, and enters Warning mode;
every other field — in particular `pending_action` — is unchanged, and no
dispatch call is made (the function is independent of the dispatch layer). -/
theorem trigger_action_readonly_frame (reg : Registry) (action_index : Nat)
    (a : App) (h : a.readonly = true) :
    trigger_action reg action_index a
      = { a with warning_message := some "This operation is not supported in read-only mode", error := none, mode := Mode.Warning } := by
  simp [trigger_action, h, show_warning]

/-- Witness for the amended C4 at a concrete read-only state. -/
theorem trigger_action_readonly_frame_witness :
    readonlyApp.readonly = true
    ∧ trigger_action regEmpty 3 readonlyApp
      = { readonlyApp with warning_message := some "This operation is not supported in read-only mode", error := none, mode := Mode.Warning } :=
  ⟨rfl, trigger_action_readonly_frame regEmpty 3 readonlyApp rfl⟩

/-- C5: with a pending action selected "No", `execute_pending_action` is
independent of both dispatch oracles and of the clock (so dispatch is never
invoked), consumes the pending action, returns to Normal mode, and leaves the
item lists, filtered item lists and selection unchanged. -/
theorem execute_pending_action_no_selection (reg : Registry)
    (e₁ e₂ : Except String Json) (f₁ f₂ : Except String (List Json))
    (n₁ n₂ : Nat) (p : PendingAction) (a : App)
    (hp : a.pending_action = some p) (hno : p.selected_yes = false) :
    execute_pending_action reg e₁ f₁ n₁ a = execute_pending_action reg e₂ f₂ n₂ a
    ∧ (execute_pending_action reg e₁ f₁ n₁ a).pending_action = none
    ∧ (execute_pending_action reg e₁ f₁ n₁ a).mode = Mode.Normal
    ∧ (execute_pending_action reg e₁ f₁ n₁ a).items = a.items
    ∧ (execute_pending_action reg e₁ f₁ n₁ a).filtered_items = a.filtered_items
    ∧ (execute_pending_action reg e₁ f₁ n₁ a).selected = a.selected := by
  simp [execute_pending_action, hp, hno, exit_mode]

/-- Witness for C5 at a concrete state with a destructive pending action
selected "No", fed two different oracle outcomes. -/
theorem execute_pending_action_no_selection_witness :
    pendingNoApp.pending_action = some ⟨"Delete x?", true, false, "0", "x"⟩
    ∧ (execute_pending_action regEmpty (Except.ok Json.null) (Except.ok []) 1 pendingNoApp
        = execute_pending_action regEmpty (Except.error "e") (Except.error "f") 9 pendingNoApp
      ∧ (execute_pending_action regEmpty (Except.ok Json.null) (Except.ok []) 1 pendingNoApp).pending_action = none
      ∧ (execute_pending_action regEmpty (Except.ok Json.null) (Except.ok []) 1 pendingNoApp).mode = Mode.Normal
      ∧ (execute_pending_action regEmpty (Except.ok Json.null) (Except.ok []) 1 pendingNoApp).items = pendingNoApp.items
      ∧ (execute_pending_action regEmpty (Except.ok Json.null) (Except.ok []) 1 pendingNoApp).filtered_items = pendingNoApp.filtered_items
      ∧ (execute_pending_action regEmpty (Except.ok Json.null) (Except.ok []) 1 pendingNoApp).selected = pendingNoApp.selected) :=
  ⟨by rfl, execute_pending_action_no_selection regEmpty (Except.ok Json.null)
      (Except.error "e") (Except.ok []) (Except.error "f") 1 9
      ⟨"Delete x?", true, false, "0", "x"⟩ pendingNoApp (by rfl) rfl⟩

end Tgcp

namespace Tgcp

/-- Frame lemma: `apply_filter` only touches `filtered_items` and `selected`. -/
theorem apply_filter_frame (reg : Registry) (a : App) :
    (apply_filter reg a).resource_key = a.resource_key
    ∧ (apply_filter reg a).parent_context = a.parent_context
    ∧ (apply_filter reg a).navigation_stack = a.navigation_stack
    ∧ (apply_filter reg a).items = a.items
    ∧ (apply_filter reg a).mode = a.mode
    ∧ (apply_filter reg a).loading = a.loading
    ∧ (apply_filter reg a).error = a.error := by
  unfold apply_filter clampSelection
  dsimp only
  split <;> split <;> simp

/-- Frame lemma: `refresh` never touches the resource key, the parent context
or the navigation stack. -/
theorem refresh_frame (reg : Registry) (fetch : Except String (List Json))
    (now : Nat) (a : App) :
    (refresh reg fetch now a).resource_key = a.resource_key
    ∧ (refresh reg fetch now a).parent_context = a.parent_context
    ∧ (refresh reg fetch now a).navigation_stack = a.navigation_stack := by
  unfold refresh
  dsimp only
  cases hg : get_resource reg a.resource_key with
  | none => simp [show_error]
  | some r =>
    cases fetch with
    | error e => simp [show_error]
    | ok items =>
      have h := apply_filter_frame reg
        { a with loading := true, error := none, items := items }
      dsimp only
      split <;> simp [h.1, h.2.1, h.2.2.1]

end Tgcp

namespace Tgcp

/-- C2: when the dispatch list call fails, `refresh` empties both item lists,
resets the selection to 0, and surfaces the error as a Warning-mode message;
and in every outcome (success, dispatch failure, or missing resource
definition) `refresh` returns with the loading flag cleared and the
last-refresh timestamp updated. -/
theorem refresh_fail_closed (reg : Registry) (fetch : Except String (List Json))
    (now : Nat) (a : App) :
    (∀ r e, get_resource reg a.resource_key = some r → fetch = Except.error e →
      (refresh reg fetch now a).items = []
      ∧ (refresh reg fetch now a).filtered_items = []
      ∧ (refresh reg fetch now a).selected = 0
      ∧ (refresh reg fetch now a).mode = Mode.Warning
      ∧ (refresh reg fetch now a).error = some e)
    ∧ (refresh reg fetch now a).loading = false
    ∧ (refresh reg fetch now a).last_refresh = now := by
  refine ⟨?_, rfl, rfl⟩
  intro r e hr hf
  subst hf
  unfold refresh
  dsimp only
  rw [show get_resource reg a.resource_key = some r from hr]
  simp [show_error]

/-- Witness for C2's failure branch at a concrete state and catalog. -/
theorem refresh_fail_closed_witness :
    get_resource (fun _ => some vmResource) baseApp.resource_key = some vmResource
    ∧ ((refresh (fun _ => some vmResource) (Except.error "HTTP 500") 42 baseApp).items = []
      ∧ (refresh (fun _ => some vmResource) (Except.error "HTTP 500") 42 baseApp).filtered_items = []
      ∧ (refresh (fun _ => some vmResource) (Except.error "HTTP 500") 42 baseApp).selected = 0
      ∧ (refresh (fun _ => some vmResource) (Except.error "HTTP 500") 42 baseApp).mode = Mode.Warning
      ∧ (refresh (fun _ => some vmResource) (Except.error "HTTP 500") 42 baseApp).error = some "HTTP 500")
    ∧ (refresh (fun _ => some vmResource) (Except.error "HTTP 500") 42 baseApp).loading = false
    ∧ (refresh (fun _ => some vmResource) (Except.error "HTTP 500") 42 baseApp).last_refresh = 42 :=
  ⟨rfl,
    (refresh_fail_closed (fun _ => some vmResource) (Except.error "HTTP 500") 42 baseApp).1
      vmResource "HTTP 500" rfl rfl,
    (refresh_fail_closed (fun _ => some vmResource) (Except.error "HTTP 500") 42 baseApp).2⟩

end Tgcp

namespace Tgcp

theorem dropLast_getLast_len (l : List ParentContext) :
    l.dropLast.length + (if l.getLast?.isSome then 1 else 0) = l.length := by
  cases hl : l with
  | nil => simp
  | cons x xs =>
    have hne : x :: xs ≠ [] := by simp
    have hsome : (x :: xs).getLast?.isSome = true := by
      rw [List.getLast?_isSome]; exact hne
    rw [hsome]
    have hlen : (x :: xs).dropLast.length = (x :: xs).length - 1 :=
      List.length_dropLast (x :: xs)
    simp only [hlen, List.length_cons, if_true]
    omega

end Tgcp

namespace Tgcp

/-- C3: with an item selected and a key declared among the current resource's
sub-resources, `navigate_to_sub_resource` followed by `navigate_back` restores
the previous resource key and leaves the total navigation-stack frame count
unchanged, for all dispatch outcomes along the way. -/
theorem nav_sub_then_back_roundtrip (reg : Registry)
    (f₁ f₂ : Except String (List Json)) (n₁ n₂ : Nat) (key : String) (a : App)
    (item : Json) (cur : ResourceDef)
    (hsel : selected_item a = some item)
    (hcur : current_resource reg a = some cur)
    (hany : (cur.sub_resources.any (fun s => s.resource_key == key)) = true) :
    (navigate_back reg f₂ n₂ (navigate_to_sub_resource reg f₁ n₁ key a)).resource_key
        = a.resource_key
    ∧ navStackLen (navigate_back reg f₂ n₂ (navigate_to_sub_resource reg f₁ n₁ key a))
        = navStackLen a := by
  cases hpc : a.parent_context with
  | some ctx =>
    have hstep : navigate_to_sub_resource reg f₁ n₁ key a
        = refresh reg f₁ n₁
            { a with navigation_stack := a.navigation_stack ++ [ctx],
                     parent_context := some ⟨a.resource_key, item,
                       if extract_json_value item cur.name_field ≠ "-"
                       then extract_json_value item cur.name_field
                       else extract_json_value item cur.id_field⟩,
                     resource_key := key, selected := 0,
                     filter_text := "", filter_active := false } := by
      simp [navigate_to_sub_resource, hsel, hcur, hany, hpc]
    rw [hstep]
    have hf₁ := refresh_frame reg f₁ n₁
      { a with navigation_stack := a.navigation_stack ++ [ctx],
               parent_context := some ⟨a.resource_key, item,
                 if extract_json_value item cur.name_field ≠ "-"
                 then extract_json_value item cur.name_field
                 else extract_json_value item cur.id_field⟩,
               resource_key := key, selected := 0,
               filter_text := "", filter_active := false }
    unfold navigate_back
    rw [hf₁.2.1]
    dsimp only
    constructor
    · exact (refresh_frame reg f₂ n₂ _).1
    · unfold navStackLen
      rw [(refresh_frame reg f₂ n₂ _).2.1, (refresh_frame reg f₂ n₂ _).2.2]
      dsimp only
      rw [hf₁.2.2]
      dsimp only
      rw [List.dropLast_concat, List.getLast?_concat]
      simp [hpc]
  | none =>
    have hstep : navigate_to_sub_resource reg f₁ n₁ key a
        = refresh reg f₁ n₁
            { a with parent_context := some ⟨a.resource_key, item,
                       if extract_json_value item cur.name_field ≠ "-"
                       then extract_json_value item cur.name_field
                       else extract_json_value item cur.id_field⟩,
                     resource_key := key, selected := 0,
                     filter_text := "", filter_active := false } := by
      simp [navigate_to_sub_resource, hsel, hcur, hany, hpc]
    rw [hstep]
    have hf₁ := refresh_frame reg f₁ n₁
      { a with parent_context := some ⟨a.resource_key, item,
                 if extract_json_value item cur.name_field ≠ "-"
                 then extract_json_value item cur.name_field
                 else extract_json_value item cur.id_field⟩,
               resource_key := key, selected := 0,
               filter_text := "", filter_active := false }
    unfold navigate_back
    rw [hf₁.2.1]
    dsimp only
    constructor
    · exact (refresh_frame reg f₂ n₂ _).1
    · unfold navStackLen
      rw [(refresh_frame reg f₂ n₂ _).2.1, (refresh_frame reg f₂ n₂ _).2.2]
      dsimp only
      rw [hf₁.2.2]
      dsimp only
      rw [dropLast_getLast_len]
      simp [hpc]

end Tgcp

namespace Tgcp

/-- Witness for C3 at a concrete state, with a failing dispatch on the way
down and a succeeding one on the way back. -/
theorem nav_sub_then_back_roundtrip_witness :
    selected_item navApp
      = some (Json.obj [("displayName", Json.str "svc-a"), ("uniqueId", Json.str "1")])
    ∧ current_resource regSa navApp = some saResource
    ∧ (saResource.sub_resources.any (fun s => s.resource_key == "sa-keys")) = true
    ∧ (navigate_back regSa (Except.ok []) 2
        (navigate_to_sub_resource regSa (Except.error "down") 1 "sa-keys" navApp)).resource_key
        = navApp.resource_key
    ∧ navStackLen (navigate_back regSa (Except.ok []) 2
        (navigate_to_sub_resource regSa (Except.error "down") 1 "sa-keys" navApp))
        = navStackLen navApp := by
  refine ⟨by rfl, by rfl, by rfl, ?_, ?_⟩
  · exact (nav_sub_then_back_roundtrip regSa (Except.error "down") (Except.ok [])
      1 2 "sa-keys" navApp _ saResource (by rfl) (by rfl) (by rfl)).1
  · exact (nav_sub_then_back_roundtrip regSa (Except.error "down") (Except.ok [])
      1 2 "sa-keys" navApp _ saResource (by rfl) (by rfl) (by rfl)).2

end Tgcp

namespace Tgcp

/-- `containsList` decides contiguous-substring (infix) occurrence. -/
theorem containsList_iff (hay pat : List Char) :
    containsList hay pat = true ↔ pat <:+: hay := by
  induction hay with
  | nil => simp [containsList, List.isEmpty_iff, List.infix_nil]
  | cons c rest ih =>
    simp [containsList, List.isPrefixOf_iff_prefix, ih, List.infix_cons_iff]

/-- `rustContains` decides substring containment on strings. -/
theorem rustContains_iff (s pat : String) :
    rustContains s pat = true ↔ pat.toList <:+: s.toList :=
  containsList_iff s.toList pat.toList

/-- C7: `execute_command` resolves the effective command string as: an empty
typed buffer takes the preview verbatim (empty when there is no preview); a
non-empty buffer with a preview containing the typed text as a substring takes
the preview; otherwise the typed text as-is. -/
theorem effective_command_resolution (a : App) :
    (a.command_text = "" → effective_command_text a = a.command_preview.getD "")
    ∧ (∀ p, a.command_text ≠ "" → a.command_preview = some p →
        ((a.command_text.toList <:+: p.toList) → effective_command_text a = p)
        ∧ (¬ (a.command_text.toList <:+: p.toList) →
            effective_command_text a = a.command_text))
    ∧ (a.command_text ≠ "" → a.command_preview = none →
        effective_command_text a = a.command_text) := by
  refine ⟨?_, ?_, ?_⟩
  · intro h
    simp [effective_command_text, String.isEmpty_iff, h]
  · intro p hne hp
    have hempty : a.command_text.isEmpty = false := by
      rw [Bool.eq_false_iff]
      intro hc
      exact hne ((String.isEmpty_iff a.command_text).mp hc)
    constructor
    · intro hinf
      have : rustContains p a.command_text = true := (rustContains_iff p a.command_text).mpr hinf
      simp [effective_command_text, hempty, hp, this]
    · intro hninf
      have : rustContains p a.command_text = false := by
        rw [Bool.eq_false_iff]
        intro hc
        exact hninf ((rustContains_iff p a.command_text).mp hc)
      simp [effective_command_text, hempty, hp, this]
  · intro hne hp
    have hempty : a.command_text.isEmpty = false := by
      rw [Bool.eq_false_iff]
      intro hc
      exact hne ((String.isEmpty_iff a.command_text).mp hc)
    simp [effective_command_text, hempty, hp]

/-- Witness for C7: the preview `projects` contains the typed `proj`, so the
effective command resolves to the preview. -/
theorem effective_command_resolution_witness :
    cmdApp.command_text ≠ ""
    ∧ cmdApp.command_preview = some "projects"
    ∧ ("proj".toList <:+: "projects".toList)
    ∧ effective_command_text cmdApp = "projects" :=
  ⟨by decide, rfl, by decide,
    ((effective_command_resolution cmdApp).2.1 "projects" (by decide) rfl).1 (by decide)⟩

end Tgcp

namespace Tgcp

/-- C6 as stated is false for the `q`/`quit` verbs: they return the quit
signal immediately, before the `mode = Normal` reset at the end of
`execute_command`, so the mode stays `Command`. -/
theorem execute_command_quit_keeps_mode :
    effective_command_text quitApp = "q"
    ∧ (execute_command regEmpty (Except.ok []) 0 quitApp).1.mode = Mode.Command
    ∧ Mode.Command ≠ Mode.Normal :=
  ⟨rfl, rfl, by decide⟩

/-- C6 amended: for every effective command string with at least one
whitespace-separated token, `execute_command` leaves the mode at Normal,
except that `projects`/`zones` leave the engine in the Projects/Zones
selection mode, and `q`/`quit` return the quit signal with the entire state
(hence the mode) unchanged. -/
theorem execute_command_mode_reset (reg : Registry)
    (fetch : Except String (List Json)) (now : Nat) (a : App)
    (cmd : String) (rest : List String)
    (hsplit : splitWhitespace (effective_command_text a) = cmd :: rest) :
    ((cmd = "q" ∨ cmd = "quit") →
        (execute_command reg fetch now a).1 = a
        ∧ (execute_command reg fetch now a).2 = true)
    ∧ (cmd = "projects" →
        (execute_command reg fetch now a).1.mode = Mode.Projects
        ∧ (execute_command reg fetch now a).2 = false)
    ∧ (cmd = "zones" →
        (execute_command reg fetch now a).1.mode = Mode.Zones
        ∧ (execute_command reg fetch now a).2 = false)
    ∧ (cmd ≠ "q" → cmd ≠ "quit" → cmd ≠ "projects" → cmd ≠ "zones" →
        (execute_command reg fetch now a).1.mode = Mode.Normal
        ∧ (execute_command reg fetch now a).2 = false) := by
  refine ⟨?_, ?_, ?_, ?_⟩
  · rintro (h | h) <;> subst h <;> simp [execute_command, hsplit]
  · intro h
    subst h
    simp [execute_command, hsplit, enter_projects_mode]
  · intro h
    subst h
    simp [execute_command, hsplit, enter_zones_mode]
  · intro h1 h2 h3 h4
    simp [execute_command, hsplit, h1, h2, h3, h4]

/-- Witness for the amended C6 at the `back` verb: the mode is reset to
Normal and no quit is signalled. -/
theorem execute_command_mode_reset_witness :
    splitWhitespace (effective_command_text backApp) = ["back"]
    ∧ (execute_command regEmpty (Except.ok []) 0 backApp).1.mode = Mode.Normal
    ∧ (execute_command regEmpty (Except.ok []) 0 backApp).2 = false := by
  refine ⟨by decide, ?_⟩
  exact (execute_command_mode_reset regEmpty (Except.ok []) 0 backApp "back" []
    (by decide)).2.2.2 (by decide) (by decide) (by decide) (by decide)

end Tgcp

namespace Tgcp

/-- C1 as stated is false: from a state satisfying the invariant (selection 1
of 2), `apply_filter` with a filter matching nothing empties the filtered
list but leaves the selection at 1, not 0. -/
theorem apply_filter_empty_keeps_selection :
    filterApp.selected < filterApp.filtered_items.length
    ∧ (apply_filter regVm filterApp).filtered_items = []
    ∧ (apply_filter regVm filterApp).selected = 1 :=
  ⟨by decide, by rfl, by rfl⟩

theorem selectionInRange_of_zero {a : App} (h : a.selected = 0)
    (hne : a.filtered_items ≠ []) : a.selected < a.filtered_items.length := by
  rw [h]
  exact List.length_pos.mpr hne

theorem clampSelection_in_range (b : App) : selectionInRange (clampSelection b) := by
  unfold clampSelection selectionInRange
  split
  next h =>
    intro _
    dsimp only
    exact Nat.sub_lt (List.length_pos.mpr (List.isEmpty_eq_false.mp h.2)) Nat.one_pos
  next h =>
    intro hne
    have hf : b.filtered_items.isEmpty = false := List.isEmpty_eq_false.mpr hne
    rcases Nat.lt_or_ge b.selected b.filtered_items.length with hlt | hge
    · exact hlt
    · exact absurd ⟨hge, hf⟩ h

theorem apply_filter_in_range (reg : Registry) (a : App) :
    selectionInRange (apply_filter reg a) := by
  unfold apply_filter
  exact clampSelection_in_range _

theorem refresh_in_range (reg : Registry) (fetch : Except String (List Json))
    (now : Nat) (a : App) (h : selectionInRange a) :
    selectionInRange (refresh reg fetch now a) := by
  unfold refresh
  dsimp only
  cases hg : get_resource reg a.resource_key with
  | none =>
    intro hne
    dsimp [show_error] at hne ⊢
    exact h hne
  | some r =>
    cases fetch with
    | error e =>
      intro hne
      dsimp [show_error] at hne
      exact absurd rfl hne
    | ok items =>
      intro hne
      dsimp only at hne ⊢
      revert hne
      split
      next hlt =>
        intro hne
        dsimp only at hne ⊢
        exact hlt
      next hge =>
        intro hne
        dsimp only at hne ⊢
        exact List.length_pos.mpr hne

end Tgcp

namespace Tgcp

theorem navigate_to_resource_in_range (reg : Registry)
    (fetch : Except String (List Json)) (now : Nat) (key : String) (a : App)
    (h : selectionInRange a) :
    selectionInRange (navigate_to_resource reg fetch now key a) := by
  unfold navigate_to_resource
  split
  · intro hne
    exact h hne
  · exact refresh_in_range reg fetch now _ (fun _ => by
      exact selectionInRange_of_zero rfl (by assumption))

theorem navigate_to_sub_resource_in_range (reg : Registry)
    (fetch : Except String (List Json)) (now : Nat) (key : String) (a : App)
    (h : selectionInRange a) :
    selectionInRange (navigate_to_sub_resource reg fetch now key a) := by
  unfold navigate_to_sub_resource
  cases hsel : selected_item a with
  | none => exact h
  | some it =>
    cases hcur : current_resource reg a with
    | none => exact h
    | some cur =>
      dsimp only
      split
      · intro hne
        exact h hne
      · cases hpc : a.parent_context with
        | some ctx =>
          dsimp only
          exact refresh_in_range reg fetch now _ (fun hne =>
            selectionInRange_of_zero rfl hne)
        | none =>
          dsimp only
          exact refresh_in_range reg fetch now _ (fun hne =>
            selectionInRange_of_zero rfl hne)

theorem navigate_back_in_range (reg : Registry)
    (fetch : Except String (List Json)) (now : Nat) (a : App)
    (h : selectionInRange a) :
    selectionInRange (navigate_back reg fetch now a) := by
  unfold navigate_back
  cases hpc : a.parent_context with
  | none => exact h
  | some parent =>
    dsimp only
    exact refresh_in_range reg fetch now _ (fun hne =>
      selectionInRange_of_zero rfl hne)

theorem next_in_range (a : App) (h : selectionInRange a) :
    selectionInRange (next a) := by
  unfold next
  split
  · split <;> exact h
  · split <;> exact h
  · split
    · intro hne
      have hpos : 0 < a.filtered_items.length := List.length_pos.mpr (by exact hne)
      exact Nat.lt_of_le_of_lt (Nat.min_le_right _ _) (Nat.sub_lt hpos Nat.one_pos)
    · exact h

theorem previous_in_range (a : App) (h : selectionInRange a) :
    selectionInRange (previous a) := by
  unfold previous
  split
  · exact h
  · exact h
  · intro hne
    exact Nat.lt_of_le_of_lt (Nat.sub_le _ _) (h (by exact hne))

theorem go_to_top_in_range (a : App) (h : selectionInRange a) :
    selectionInRange (go_to_top a) := by
  unfold go_to_top
  split
  · exact h
  · exact h
  · intro hne
    exact List.length_pos.mpr (by exact hne)

theorem go_to_bottom_in_range (a : App) (h : selectionInRange a) :
    selectionInRange (go_to_bottom a) := by
  unfold go_to_bottom
  split
  · split <;> exact h
  · split <;> exact h
  · split
    · intro hne
      have hpos : 0 < a.filtered_items.length := List.length_pos.mpr (by exact hne)
      exact Nat.sub_lt hpos Nat.one_pos
    · exact h

end Tgcp

namespace Tgcp

/-- C1 amended: from any state in which the selection is strictly below the
filtered length whenever the filtered list is non-empty, every state-mutating
operation of the navigation engine re-establishes that property (the stronger
"equals 0 whenever empty" clause fails, see the counterexample). -/
theorem selection_in_range_preserved (reg : Registry)
    (fetch : Except String (List Json)) (now : Nat) (key : String) (a : App)
    (h : selectionInRange a) :
    selectionInRange (apply_filter reg a)
    ∧ selectionInRange (refresh reg fetch now a)
    ∧ selectionInRange (navigate_to_resource reg fetch now key a)
    ∧ selectionInRange (navigate_to_sub_resource reg fetch now key a)
    ∧ selectionInRange (navigate_back reg fetch now a)
    ∧ selectionInRange (next a)
    ∧ selectionInRange (previous a)
    ∧ selectionInRange (go_to_top a)
    ∧ selectionInRange (go_to_bottom a) :=
  ⟨apply_filter_in_range reg a,
   refresh_in_range reg fetch now a h,
   navigate_to_resource_in_range reg fetch now key a h,
   navigate_to_sub_resource_in_range reg fetch now key a h,
   navigate_back_in_range reg fetch now a h,
   next_in_range a h,
   previous_in_range a h,
   go_to_top_in_range a h,
   go_to_bottom_in_range a h⟩

/-- Witness for the amended C1 at a concrete in-range state. -/
theorem selection_in_range_preserved_witness :
    selectionInRange navApp
    ∧ (selectionInRange (apply_filter regSa navApp)
      ∧ selectionInRange (refresh regSa (Except.ok []) 5 navApp)
      ∧ selectionInRange (navigate_to_resource regSa (Except.ok []) 5 "sa-keys" navApp)
      ∧ selectionInRange (navigate_to_sub_resource regSa (Except.ok []) 5 "sa-keys" navApp)
      ∧ selectionInRange (navigate_back regSa (Except.ok []) 5 navApp)
      ∧ selectionInRange (next navApp)
      ∧ selectionInRange (previous navApp)
      ∧ selectionInRange (go_to_top navApp)
      ∧ selectionInRange (go_to_bottom navApp)) :=
  ⟨fun _ => by decide,
   selection_in_range_preserved regSa (Except.ok []) 5 "sa-keys" navApp (fun _ => by decide)⟩

end Tgcp
